import Mathlib

/-!
Verification of the Safari bookmark management scripts
(`prune_broken_safari_bookmarks.py`, `remove_safari_bookmarks_by_domains.py`,
`check_safari_bookmarks_http.py`) against their natural-language specification.

The Python sources are shallowly embedded below: pure functions become Lean
functions, the mutable `stats` dictionary becomes explicit state passing,
the file system becomes an explicit association of paths to byte lists, and
the single network probe performed by `check_url` is parameterised by an
oracle describing the outcome of that probe (HTTP response, transport
failure, or other fault).  Python string operations are modelled over the
character list of a `String` (Python `str.lower` is modelled ASCII-only,
which covers every string the scripts compare).
-/

namespace SafariBookmarks

/-! ## Python string semantics helpers -/

/-- Python `a or b` over strings: an empty string is falsy, so the first
non-empty operand wins.  The scripts use this for titles
(`item.get("Title") or item.get("URIDictionary", {}).get("title") or ""`)
and URL presence tests (`if not url`). -/
def pyOr (a b : String) : String := if a ≠ "" then a else b

/-- Python `s.split(sep)` for a one-character separator, over char lists. -/
def splitChar (sep : Char) : List Char → List (List Char)
  | [] => [[]]
  | c :: cs =>
    let r := splitChar sep cs
    if c == sep then [] :: r
    else
      match r with
      | [] => [[c]]
      | h :: t => (c :: h) :: t

/-- Python `sep.join(pieces)` for a one-character separator, over char lists. -/
def joinChar (sep : Char) : List (List Char) → List Char
  | [] => []
  | [x] => x
  | x :: xs => x ++ sep :: joinChar sep xs

/-- Whether `pat` is a leading piece of `s` (Python `s.startswith(pat)`). -/
def startsWithList : List Char → List Char → Bool
  | _, [] => true
  | [], _ :: _ => false
  | a :: as, b :: bs => a == b && startsWithList as bs

def strStarts (s pat : String) : Bool := startsWithList s.data pat.data

def strEnds (s pat : String) : Bool := startsWithList s.data.reverse pat.data.reverse

/-- Python `s.lower()` (ASCII). -/
def lowerStr (s : String) : String := String.mk (s.data.map Char.toLower)

/-! ## URL parsing (the fragment of `urllib.parse.urlparse` the scripts use)

`urlparse` recognises a scheme when the text before the first `:` is
non-empty, starts with an ASCII letter and consists of letters, digits,
`+`, `-`, `.`; the scheme is lowercased.  The netloc is present only when
the text after the scheme starts with `//` and runs to the first `/`, `?`
or `#`; `hostname` drops user info before the last `@`, a `:port` suffix
and IPv6 brackets from the netloc, then lowercases. -/

def isSchemeChar (c : Char) : Bool :=
  c.isAlpha || c.isDigit || c == '+' || c == '-' || c == '.'

def urlScheme (url : String) : String :=
  match splitChar ':' url.data with
  | [] => ""
  | [_] => ""
  | before :: _ =>
    match before with
    | [] => ""
    | c :: _ =>
      if c.isAlpha && before.all isSchemeChar then String.mk (before.map Char.toLower)
      else ""

/-- Text after the first `:` of a URL, used when a scheme was recognised. -/
def afterColon (url : String) : String :=
  match splitChar ':' url.data with
  | [] => url
  | [_] => url
  | _ :: rest => String.mk (joinChar ':' rest)

def netlocOf (url : String) : String :=
  let rest := if urlScheme url ≠ "" then afterColon url else url
  if strStarts rest "//" then
    String.mk ((rest.data.drop 2).takeWhile (fun c => c != '/' && c != '?' && c != '#'))
  else ""

/-- Embedding of `hostname` (identical in all three scripts): the lowercased
host part of the URL's netloc, or `""` when the URL has no netloc.  Python's
`urlparse(url).hostname` returns `None` for an empty host and the scripts
map that to `""` via `(h or "")`. -/
def hostname (url : String) : String :=
  let netloc := (netlocOf url).data
  let hostinfo := (splitChar '@' netloc).getLastD netloc
  let host :=
    if hostinfo.any (fun c => c == '[') then
      ((hostinfo.dropWhile (fun c => c != '[')).drop 1).takeWhile (fun c => c != ']')
    else
      hostinfo.takeWhile (fun c => c != ':')
  String.mk (host.map Char.toLower)

/-- Embedding of `is_http_url` (`prune_broken_safari_bookmarks.py` lines
29-34, `check_safari_bookmarks_http.py` lines 24-29): the parsed scheme is
`http` or `https`.  `urlparse` never raises on a string, so the `except`
arm of the source is dead code. -/
def is_http_url (url : String) : Bool :=
  urlScheme url == "http" || urlScheme url == "https"

/-! ## Domain matching (`remove_safari_bookmarks_by_domains.py` lines 28-44) -/

/-- Python `s.strip(".")` over char lists: remove leading and trailing dots. -/
def stripDotsL (s : List Char) : List Char :=
  ((s.dropWhile (fun c => c == '.')).reverse.dropWhile (fun c => c == '.')).reverse

/-- Embedding of `matches_domain`: `host` matches a target `d` when, after
lowercasing and dot-stripping both, they are equal or `host` ends with
`"." ++ d`. -/
def matches_domain (host : String) (targets : List String) : Bool :=
  let h := stripDotsL ((lowerStr host).data)
  if h = [] then false
  else
    targets.any fun d0 =>
      let d := ((lowerStr d0).data).dropWhile (fun c => c == '.')
      if d = [] then false
      else h == d || startsWithList h.reverse ('.' :: d).reverse

/-! ## Link classifier (`check_url`)

`check_url` appears identically in `prune_broken_safari_bookmarks.py`
(lines 45-69) and `check_safari_bookmarks_http.py` (lines 76-93).  The
single network probe is modelled by an oracle value describing what
`urlopen` did: an HTTP-level response carrying a status code (covering both
the success path `resp.getcode()` and the `HTTPError` handler `e.code`), a
`URLError` transport failure, or any other exception. -/

inductive NetOutcome where
  | response (code : Int)
  | urlError (reason : String)
  | otherError (msg : String)
deriving Repr, DecidableEq

structure Verdict where
  status : Option Int
  error : Option String
deriving Repr, DecidableEq

/-- Embedding of `check_url`: non-HTTP(S) URLs short-circuit to the
`Non-HTTP` verdict without touching the network; otherwise the verdict is
read off the probe outcome. -/
def check_url (url : String) (_timeout : Int) (outcome : NetOutcome) : Verdict :=
  if ¬ is_http_url url then ⟨none, some "Non-HTTP"⟩
  else
    match outcome with
    | .response code => ⟨some code, none⟩
    | .urlError reason => ⟨none, some ("URLError: " ++ reason)⟩
    | .otherError msg => ⟨none, some ("Error: " ++ msg)⟩

/-! ## Tree model

A plist entry is a folder exactly when it carries a `Children` key (spec §9
notes this dynamic tagging; the embedding makes it a sum type).  String
fields use `""` for a missing value, matching the scripts' uniform
`dict.get(...) or ...` falsy treatment of `None` and `""`.  The `meta`
field stands for all further plist keys the scripts never read, so that
"field-for-field" pass-through claims are about real content. -/

inductive Item where
  | folder (title uriTitle : String) (children : List Item) (meta : List (String × String))
  | leaf (urlString title uriTitle : String) (meta : List (String × String))
deriving Repr

/-- Tally dictionary of `prune_broken_safari_bookmarks.py` (lines 249-253). -/
structure Stats where
  total_tested : Nat
  total_broken : Nat
  total_deleted : Nat
deriving Repr, DecidableEq

/-- Embedding of `"/".join([p for p in path_stack if p])` (lines 99 and 127
of `prune_broken_safari_bookmarks.py`). -/
def joinPath (stack : List String) : String :=
  String.mk (joinChar '/' ((stack.filter (fun p => p ≠ "")).map String.data))

/-- Embedding of the scope test on line 131 of
`prune_broken_safari_bookmarks.py`:
`folder_filter and not folder_path.startswith(folder_filter)`.
`main` passes `None` when no `--folder` was given; an empty string is falsy
too, so filtering is off in both cases. -/
def outOfScope (folder_filter : Option String) (folder_path : String) : Bool :=
  match folder_filter with
  | none => false
  | some f => !(f == "") && !(strStarts folder_path f)

/-- Embedding of the removal decision of
`prune_broken_safari_bookmarks.py` lines 142-152: drop when there was no
response (`status is None`) or the status reached `min_status`. -/
def to_delete (status : Option Int) (min_status : Int) : Bool :=
  match status with
  | none => true
  | some s => min_status ≤ s

/-- Arguments `prune_children` receives from `main` (other than the tree and
the stats), plus the network oracle standing for the per-URL probe. -/
structure PruneArgs where
  folder_filter : Option String
  timeout : Int
  dry_run : Bool
  min_status : Int
  net : String → NetOutcome

/-- Embedding of `prune_children` (`prune_broken_safari_bookmarks.py`
lines 83-184).  The mutable `stats` dict is threaded explicitly; the
`path_stack` push/pop pair around the recursive call becomes passing
`stack ++ [...]` to the subtree and `stack` to the remaining siblings;
`item["Children"] = filtered_kids` followed by `new_children.append(item)`
becomes rebuilding the folder with the filtered children. -/
def prune_children (a : PruneArgs) (stack : List String) :
    List Item → Stats → List Item × Stats
  | [], stats => ([], stats)
  | .folder t u kids m :: rest, stats =>
    let title := pyOr t u
    let stack' := stack ++ [pyOr title "Sans titre"]
    (.folder t u (prune_children a stack' kids stats).1 m ::
       (prune_children a stack rest (prune_children a stack' kids stats).2).1,
     (prune_children a stack rest (prune_children a stack' kids stats).2).2)
  | .leaf url t u m :: rest, stats =>
    if url = "" then
      let res := prune_children a stack rest stats
      (.leaf url t u m :: res.1, res.2)
    else
      let folder_path := joinPath stack
      if outOfScope a.folder_filter folder_path then
        let res := prune_children a stack rest stats
        (.leaf url t u m :: res.1, res.2)
      else
        let stats1 := { stats with total_tested := stats.total_tested + 1 }
        let v := check_url url a.timeout (a.net url)
        if to_delete v.status a.min_status then
          let stats2 := { stats1 with total_broken := stats1.total_broken + 1 }
          if a.dry_run then
            let res := prune_children a stack rest stats2
            (.leaf url t u m :: res.1, res.2)
          else
            let stats3 := { stats2 with total_deleted := stats2.total_deleted + 1 }
            prune_children a stack rest stats3
        else
          let res := prune_children a stack rest stats1
          (.leaf url t u m :: res.1, res.2)

/-- Embedding of `filter_children` (`remove_safari_bookmarks_by_domains.py`
lines 47-89).  A folder whose computed title is in `ignore_folders` is
copied through with no recursion; otherwise its children are filtered, but
the folder keeps its original children under `dry_run` (the source guards
the `item["Children"]` update with `if not dry_run`).  A leaf is counted
and, unless `dry_run`, omitted when its hostname matches a target domain. -/
def filter_children (targets ignore_folders : List String) (dry_run : Bool) :
    List Item → List Item × Nat
  | [] => ([], 0)
  | .folder t u kids m :: rest =>
    let title := pyOr t u
    if title ∈ ignore_folders then
      let res := filter_children targets ignore_folders dry_run rest
      (.folder t u kids m :: res.1, res.2)
    else
      let resKids := filter_children targets ignore_folders dry_run kids
      let newKids := if dry_run then kids else resKids.1
      let res := filter_children targets ignore_folders dry_run rest
      (.folder t u newKids m :: res.1, resKids.2 + res.2)
  | .leaf url t u m :: rest =>
    if url ≠ "" ∧ matches_domain (hostname url) targets then
      let res := filter_children targets ignore_folders dry_run rest
      ((if dry_run then .leaf url t u m :: res.1 else res.1), res.2 + 1)
    else
      let res := filter_children targets ignore_folders dry_run rest
      (.leaf url t u m :: res.1, res.2)

/-! ## Structure/count decompositions of the two engines

`prune_children` and `filter_children` thread a tally through the
traversal, but the tally never influences a branch.  The functions below
compute the rebuilt children and the tally increments separately;
`prune_children_eq` and `filter_children_eq` prove they decompose the
engines exactly, which the per-claim theorems then build on.
`pruneCounts` deliberately does not take the `dry_run` flag: the source
only consults it after a leaf has been tested and classified, so the
tested/matched tallies cannot depend on it. -/

/-- Rebuilt children of `prune_children`, without the tally. -/
def pruneList (a : PruneArgs) (stack : List String) : List Item → List Item
  | [] => []
  | .folder t u kids m :: rest =>
    let stack' := stack ++ [pyOr (pyOr t u) "Sans titre"]
    .folder t u (pruneList a stack' kids) m :: pruneList a stack rest
  | .leaf url t u m :: rest =>
    if url = "" then .leaf url t u m :: pruneList a stack rest
    else if outOfScope a.folder_filter (joinPath stack) then
      .leaf url t u m :: pruneList a stack rest
    else if to_delete (check_url url a.timeout (a.net url)).status a.min_status then
      if a.dry_run then .leaf url t u m :: pruneList a stack rest
      else pruneList a stack rest
    else .leaf url t u m :: pruneList a stack rest

/-- The (tested, matched) tally increments of `prune_children`. -/
def pruneCounts (ff : Option String) (ms tm : Int) (net : String → NetOutcome)
    (stack : List String) : List Item → Nat × Nat
  | [] => (0, 0)
  | .folder t u kids _ :: rest =>
    let stack' := stack ++ [pyOr (pyOr t u) "Sans titre"]
    ((pruneCounts ff ms tm net stack' kids).1 + (pruneCounts ff ms tm net stack rest).1,
     (pruneCounts ff ms tm net stack' kids).2 + (pruneCounts ff ms tm net stack rest).2)
  | .leaf url _ _ _ :: rest =>
    if url = "" then pruneCounts ff ms tm net stack rest
    else if outOfScope ff (joinPath stack) then pruneCounts ff ms tm net stack rest
    else if to_delete (check_url url tm (net url)).status ms then
      ((pruneCounts ff ms tm net stack rest).1 + 1,
       (pruneCounts ff ms tm net stack rest).2 + 1)
    else
      ((pruneCounts ff ms tm net stack rest).1 + 1,
       (pruneCounts ff ms tm net stack rest).2)

/-- Rebuilt children of `filter_children`, without the deletion count. -/
def filterList (targets ignore_folders : List String) (dry_run : Bool) :
    List Item → List Item
  | [] => []
  | .folder t u kids m :: rest =>
    if pyOr t u ∈ ignore_folders then
      .folder t u kids m :: filterList targets ignore_folders dry_run rest
    else
      .folder t u (if dry_run then kids else filterList targets ignore_folders dry_run kids) m
        :: filterList targets ignore_folders dry_run rest
  | .leaf url t u m :: rest =>
    if url ≠ "" ∧ matches_domain (hostname url) targets then
      if dry_run then .leaf url t u m :: filterList targets ignore_folders dry_run rest
      else filterList targets ignore_folders dry_run rest
    else .leaf url t u m :: filterList targets ignore_folders dry_run rest

/-- The deletion count of `filter_children` (independent of `dry_run` by
construction). -/
def filterCount (targets ignore_folders : List String) : List Item → Nat
  | [] => 0
  | .folder t u kids _ :: rest =>
    if pyOr t u ∈ ignore_folders then filterCount targets ignore_folders rest
    else filterCount targets ignore_folders kids + filterCount targets ignore_folders rest
  | .leaf url _ _ _ :: rest =>
    if url ≠ "" ∧ matches_domain (hostname url) targets then
      filterCount targets ignore_folders rest + 1
    else filterCount targets ignore_folders rest

/-- The folder skeleton of a children sequence: every folder with all its
own fields and its (recursive) skeleton, leaves erased.  Two sequences with
the same skeleton have the same folders, field-for-field, at the same
relative positions. -/
inductive Skel where
  | node (title uriTitle : String) (meta : List (String × String)) (children : List Skel)
deriving Repr

def skeletonOf : List Item → List Skel
  | [] => []
  | .folder t u kids m :: rest => .node t u m (skeletonOf kids) :: skeletonOf rest
  | .leaf _ _ _ _ :: rest => skeletonOf rest

/-! ## File system and the safety transaction

Both mutating scripts share the same shape of `main`: back the source file
up, rebuild the tree, overwrite the source, and on a write failure restore
the source from the backup and exit non-zero
(`prune_broken_safari_bookmarks.py` lines 236 and 282-293,
`remove_safari_bookmarks_by_domains.py` lines 154 and 166-178).  The file
system is modelled as an association of paths to byte lists; a path is a
directory plus a file name, which is what `Path.with_name` manipulates. -/

structure PPath where
  dir : String
  name : String
deriving Repr, DecidableEq

structure FS where
  files : List (PPath × List Nat)
deriving Repr, DecidableEq

def FS.read (fs : FS) (p : PPath) : Option (List Nat) :=
  (fs.files.find? (fun e => e.1 == p)).map (fun e => e.2)

def FS.write (fs : FS) (p : PPath) (b : List Nat) : FS :=
  ⟨(p, b) :: fs.files⟩

def PPath.with_name (p : PPath) (n : String) : PPath := ⟨p.dir, n⟩

/-- The file name both `backup_bookmarks` functions hardcode:
`f"Bookmarks.backup.{ts}.plist"`. -/
def backup_file_name (ts : String) : String :=
  "Bookmarks.backup." ++ ts ++ ".plist"

/-- Embedding of `backup_bookmarks` (`prune_broken_safari_bookmarks.py`
lines 74-78, `remove_safari_bookmarks_by_domains.py` lines 92-96):
`backup_path = path.with_name(f"Bookmarks.backup.{ts}.plist")` followed by
`backup_path.write_bytes(path.read_bytes())`.  `none` is the
`read_bytes` exception when the source path does not exist. -/
def backup_bookmarks (fs : FS) (path : PPath) (ts : String) : Option (FS × PPath) :=
  let backup_path := path.with_name (backup_file_name ts)
  match fs.read path with
  | none => none
  | some bytes => some (fs.write backup_path bytes, backup_path)

/-- Outcome of `plistlib.dump(data, f)` on the already-truncated-and-opened
source file: success produces the serialized bytes; failure leaves whatever
was written before the exception. -/
inductive DumpOutcome where
  | ok (bytes : List Nat)
  | fail (written : List Nat)
deriving Repr, DecidableEq

/-- Embedding of the final-write `try`/`except` of both mutating scripts:
on success the source holds the new bytes and the process continues (exit
code 0); on failure the source is rewritten from
`backup_path.read_bytes()` and the process exits 1.  A missing backup
would make that restore raise, also ending the process non-zero. -/
def finalize_write (fs : FS) (path backup_path : PPath) (dump : DumpOutcome) : FS × Nat :=
  match dump with
  | .ok b => (fs.write path b, 0)
  | .fail written =>
    let fs1 := fs.write path written
    match fs1.read backup_path with
    | some backup_bytes => (fs1.write path backup_bytes, 1)
    | none => (fs1, 1)

/-- The persistence phase shared by both mutating scripts: take the backup,
then overwrite the source with the rebuilt document.  (The traversal in
between is pure and does not touch the file system.)  The `none` branch is
the missing-source early exit of `main`. -/
def persist_phase (fs : FS) (path : PPath) (ts : String) (dump : DumpOutcome) : FS × Nat :=
  match backup_bookmarks fs path ts with
  | none => (fs, 1)
  | some (fs1, backup_path) => finalize_write fs1 path backup_path dump

/-! ## Basic lemmas -/

theorem FS.read_write_self (fs : FS) (p : PPath) (b : List Nat) :
    (fs.write p b).read p = some b := by
  simp [FS.read, FS.write, List.find?]

theorem FS.read_write_ne (fs : FS) (p q : PPath) (b : List Nat) (h : q ≠ p) :
    (fs.write p b).read q = fs.read q := by
  simp only [FS.read, FS.write, List.find?]
  have : (p == q) = false := by simp [Ne.symm h]
  simp [this]

/-- Decomposition of `prune_children`: the rebuilt children are
`pruneList` and the tally advances by `pruneCounts`, with the deleted
tally advancing only outside dry-run (and then in lockstep with the
matched tally). -/
theorem prune_children_eq (a : PruneArgs) (stack : List String) (c : List Item) (s : Stats) :
    prune_children a stack c s =
      (pruneList a stack c,
       { total_tested := s.total_tested +
           (pruneCounts a.folder_filter a.min_status a.timeout a.net stack c).1,
         total_broken := s.total_broken +
           (pruneCounts a.folder_filter a.min_status a.timeout a.net stack c).2,
         total_deleted := s.total_deleted +
           (if a.dry_run then 0
            else (pruneCounts a.folder_filter a.min_status a.timeout a.net stack c).2) }) := by
  obtain ⟨ff, tm, dr, ms, net⟩ := a
  cases dr with
  | false =>
    induction stack, c, s using prune_children.induct (PruneArgs.mk ff tm false ms net) with
    | _ => simp_all [prune_children, pruneList, pruneCounts] <;> try omega
  | true =>
    induction stack, c, s using prune_children.induct (PruneArgs.mk ff tm true ms net) with
    | _ => simp_all [prune_children, pruneList, pruneCounts] <;> try omega

/-- Decomposition of `filter_children`: the rebuilt children are
`filterList` and the reported deletion count is `filterCount`. -/
theorem filter_children_eq (targets ignore_folders : List String) (dry_run : Bool)
    (c : List Item) :
    filter_children targets ignore_folders dry_run c =
      (filterList targets ignore_folders dry_run c, filterCount targets ignore_folders c) := by
  cases dry_run with
  | false =>
    induction c using filter_children.induct targets ignore_folders false with
    | _ =>
      simp_all [filter_children, filterList, filterCount] <;> try (split <;> simp_all)
  | true =>
    induction c using filter_children.induct targets ignore_folders true with
    | _ =>
      simp_all [filter_children, filterList, filterCount] <;> try (split <;> simp_all)

theorem data_append (s t : String) : (s ++ t).data = s.data ++ t.data := by
  cases s
  cases t
  rfl

theorem append_ne_empty_left (s t : String) (h : s.data ≠ []) : s ++ t ≠ "" := by
  intro he
  apply h
  have hd : (s ++ t).data = [] := by rw [he]
  rw [data_append] at hd
  exact (List.append_eq_nil.mp hd).1

/-- Dry-run leaves the rebuilt children of the broken-link pruner untouched. -/
theorem pruneList_dry (a : PruneArgs) (stack : List String) (c : List Item)
    (h : a.dry_run = true) : pruneList a stack c = c := by
  obtain ⟨ff, tm, dr, ms, net⟩ := a
  have hdr : dr = true := h
  subst hdr
  induction stack, c using pruneList.induct (PruneArgs.mk ff tm true ms net) with
  | _ => simp_all [pruneList]

/-- Dry-run leaves the rebuilt children of the domain remover untouched. -/
theorem filterList_dry (targets ignore_folders : List String) (c : List Item) :
    filterList targets ignore_folders true c = c := by
  induction c using filterList.induct targets ignore_folders true with
  | _ => simp_all [filterList]

/-- When no in-scope leaf is classified for deletion, the broken-link pruner
rebuilds the children unchanged. -/
theorem pruneList_nomatch (a : PruneArgs) (stack : List String) (c : List Item)
    (h : (pruneCounts a.folder_filter a.min_status a.timeout a.net stack c).2 = 0) :
    pruneList a stack c = c := by
  obtain ⟨ff, tm, dr, ms, net⟩ := a
  revert h
  induction stack, c using pruneList.induct (PruneArgs.mk ff tm dr ms net) with
  | _ => simp_all [pruneList, pruneCounts] <;> omega

/-- When no leaf matches the domain list, the domain remover rebuilds the
children unchanged. -/
theorem filterList_nomatch (targets ignore_folders : List String) (dry_run : Bool)
    (c : List Item) (h : filterCount targets ignore_folders c = 0) :
    filterList targets ignore_folders dry_run c = c := by
  revert h
  induction c using filterList.induct targets ignore_folders dry_run with
  | _ =>
    intro h
    try simp only [filterCount] at h
    try simp only [filterList]
    try (split_ifs at h ⊢ <;> simp_all [filterList, filterCount])
    all_goals simp_all [filterList, filterCount]

/-- The broken-link pruner preserves the folder skeleton. -/
theorem skeleton_pruneList (a : PruneArgs) (stack : List String) (c : List Item) :
    skeletonOf (pruneList a stack c) = skeletonOf c := by
  induction stack, c using pruneList.induct a with
  | _ => simp_all [pruneList, skeletonOf] <;> try (split <;> simp_all [skeletonOf])

/-- The domain remover preserves the folder skeleton. -/
theorem skeleton_filterList (targets ignore_folders : List String) (dry_run : Bool)
    (c : List Item) :
    skeletonOf (filterList targets ignore_folders dry_run c) = skeletonOf c := by
  induction c using filterList.induct targets ignore_folders dry_run with
  | _ => simp_all [filterList, skeletonOf] <;> try (split <;> simp_all [skeletonOf])

/-! ## Claim C1 -/

/-- C1: if the final overwrite of the source document fails for any reason,
the source path is restored from the just-created backup bytes before the
failure is surfaced, so after a failed run the document's bytes equal its
pre-run bytes, and the process exits non-zero.  (The side condition that
the source file is not itself named like the backup file holds for every
real run, where the source is `Bookmarks.plist`.) -/
theorem final_write_failure_restores (fs : FS) (path : PPath) (ts : String)
    (written pre : List Nat)
    (hpre : fs.read path = some pre)
    (hname : path.name ≠ backup_file_name ts) :
    (persist_phase fs path ts (.fail written)).1.read path = some pre ∧
      (persist_phase fs path ts (.fail written)).2 ≠ 0 := by
  obtain ⟨dir, nm⟩ := path
  have hnb : (PPath.mk dir (backup_file_name ts)) ≠ (PPath.mk dir nm) := by
    simp only [ne_eq, PPath.mk.injEq, not_and]
    intro _ h
    exact hname h.symm
  have hstep : persist_phase fs ⟨dir, nm⟩ ts (.fail written) =
      ((((fs.write ⟨dir, backup_file_name ts⟩ pre).write ⟨dir, nm⟩ written).write
          ⟨dir, nm⟩ pre), 1) := by
    unfold persist_phase backup_bookmarks finalize_write PPath.with_name
    rw [hpre]
    simp only []
    rw [FS.read_write_ne _ _ _ _ hnb, FS.read_write_self]
  rw [hstep]
  exact ⟨FS.read_write_self _ _ _, one_ne_zero⟩

theorem final_write_failure_restores_witness :
    (persist_phase ⟨[(⟨"/u/Library/Safari", "Bookmarks.plist"⟩, [1, 2, 3])]⟩
        ⟨"/u/Library/Safari", "Bookmarks.plist"⟩ "20250101-120000"
        (.fail [9])).1.read ⟨"/u/Library/Safari", "Bookmarks.plist"⟩ = some [1, 2, 3] ∧
      (persist_phase ⟨[(⟨"/u/Library/Safari", "Bookmarks.plist"⟩, [1, 2, 3])]⟩
        ⟨"/u/Library/Safari", "Bookmarks.plist"⟩ "20250101-120000" (.fail [9])).2 ≠ 0 :=
  final_write_failure_restores _ _ _ _ _ (by decide) (by decide)

/-! ## Claim C2 -/

/-- Naming rule as worded by the spec (§6 "Backup file naming"): sibling
path `<original-name>.backup.<YYYYMMDD-HHMMSS>.<original-extension>`, the
stem and the extension both taken from the original file's name.  Stated
only to compare against the source's `backup_bookmarks`, which hardcodes
its file name. -/
def backup_name_per_spec (original_name ts : String) : String :=
  match (splitChar '.' original_name.data).reverse with
  | [] => original_name ++ ".backup." ++ ts
  | [_] => original_name ++ ".backup." ++ ts
  | ext :: stemRev =>
    String.mk (joinChar '.' stemRev.reverse) ++ ".backup." ++ ts ++ "." ++ String.mk ext

/-- C2 (counterexample): for a caller-overridden source path named
`MyMarks.xml`, the backup file is named
`Bookmarks.backup.<ts>.plist` — the hardcoded name of both scripts — and
not the spec's `<original-name>.backup.<ts>.<original-extension>`. -/
theorem backup_name_hardcoded_cex :
    (∃ fsOut bp,
        backup_bookmarks ⟨[(⟨"/u/docs", "MyMarks.xml"⟩, [1, 2, 3])]⟩
          ⟨"/u/docs", "MyMarks.xml"⟩ "20250101-120000" = some (fsOut, bp) ∧
        bp.name = "Bookmarks.backup.20250101-120000.plist") ∧
      "Bookmarks.backup.20250101-120000.plist" ≠
        backup_name_per_spec "MyMarks.xml" "20250101-120000" := by
  constructor
  · exact ⟨_, _, rfl, rfl⟩
  · decide

/-- C2 (amended): for every source document path, the backup is an exact
byte-for-byte copy of the source document written to a sibling path (same
directory), whose name is the fixed string
`Bookmarks.backup.<YYYYMMDD-HHMMSS>.plist` regardless of the original
file's name and extension. -/
theorem backup_exact_sibling_copy (fs : FS) (path : PPath) (ts : String)
    (pre : List Nat) (hpre : fs.read path = some pre) :
    ∃ fsOut bp, backup_bookmarks fs path ts = some (fsOut, bp) ∧
      bp.dir = path.dir ∧
      bp.name = "Bookmarks.backup." ++ ts ++ ".plist" ∧
      fsOut.read bp = some pre := by
  have hb : backup_bookmarks fs path ts =
      some (fs.write (path.with_name (backup_file_name ts)) pre,
        path.with_name (backup_file_name ts)) := by
    unfold backup_bookmarks
    rw [hpre]
  exact ⟨_, _, hb, rfl, rfl, FS.read_write_self _ _ _⟩

theorem backup_exact_sibling_copy_witness :
    ∃ fsOut bp,
      backup_bookmarks ⟨[(⟨"/u/docs", "MyMarks.xml"⟩, [7, 7])]⟩ ⟨"/u/docs", "MyMarks.xml"⟩
          "20250101-120000" = some (fsOut, bp) ∧
        bp.dir = "/u/docs" ∧
        bp.name = "Bookmarks.backup." ++ "20250101-120000" ++ ".plist" ∧
        fsOut.read bp = some [7, 7] :=
  backup_exact_sibling_copy _ _ _ _ (by decide)

/-! ## Claim C3 -/

/-- C3 (counterexample): a `javascript:` bookmarklet leaf, in scope in a
non-simulated prune run, is removed — with a tally of one tested, one
broken, one deleted — even though the probe oracle would answer 200 for
any URL actually probed.  This contradicts the claim that non-web
bookmarks are never removed by liveness-based pruning. -/
theorem non_http_leaf_removed_cex :
    is_http_url "javascript:alert(1)" = false ∧
      prune_children ⟨none, 10, false, 300, fun _ => NetOutcome.response 200⟩ []
          [Item.leaf "javascript:alert(1)" "bookmarklet" "" []] ⟨0, 0, 0⟩ =
        ([], ⟨1, 1, 1⟩) := by
  constructor
  · decide
  · simp +decide [prune_children]

/-- C3 (amended): a leaf whose URL scheme is not http/https is classified
as status-absent with error `Non-HTTP` without any network access, and —
because the prune engine drops every in-scope leaf whose status is absent —
it is marked for removal and omitted from the rebuilt children in a
non-simulated run. -/
theorem non_http_leaf_marked_and_removed (a : PruneArgs) (stack : List String)
    (url t u : String) (m : List (String × String)) (rest : List Item) (s : Stats)
    (hhttp : is_http_url url = false) (hurl : url ≠ "")
    (hscope : outOfScope a.folder_filter (joinPath stack) = false)
    (hdry : a.dry_run = false) :
    check_url url a.timeout (a.net url) = ⟨none, some "Non-HTTP"⟩ ∧
      to_delete (check_url url a.timeout (a.net url)).status a.min_status = true ∧
      (prune_children a stack (Item.leaf url t u m :: rest) s).1 =
        pruneList a stack rest := by
  have hcv : check_url url a.timeout (a.net url) = ⟨none, some "Non-HTTP"⟩ := by
    simp [check_url, hhttp]
  refine ⟨hcv, ?_, ?_⟩
  · simp [hcv, to_delete]
  · rw [prune_children_eq]
    simp [pruneList, hurl, hscope, hdry, hcv, to_delete]

theorem non_http_leaf_marked_and_removed_witness :
    (prune_children ⟨none, 10, false, 300, fun _ => NetOutcome.response 200⟩ []
      [Item.leaf "mailto:a@b.example" "mail" "" []] ⟨0, 0, 0⟩).1 = [] := by
  have h := non_http_leaf_marked_and_removed
    ⟨none, 10, false, 300, fun _ => NetOutcome.response 200⟩ [] "mailto:a@b.example"
    "mail" "" [] [] ⟨0, 0, 0⟩ (by decide) (by decide) (by decide) rfl
  rw [h.2.2]
  simp [pruneList]

/-! ## Claim C4 -/

/-- C4: in the domain-removal engine, a folder whose computed title is in
the ignore-folder set is passed through identical to the input, with its
entire subtree, and contributes nothing to the deletion count: the result
on `folder :: rest` is the untouched folder consed onto the result for
`rest`, whatever the target domains, the dry-run flag and the folder's
descendants. -/
theorem ignored_folder_untouched (targets ignore_folders : List String) (dry_run : Bool)
    (t u : String) (kids : List Item) (m : List (String × String)) (rest : List Item)
    (hig : pyOr t u ∈ ignore_folders) :
    filter_children targets ignore_folders dry_run (Item.folder t u kids m :: rest) =
      (Item.folder t u kids m :: (filter_children targets ignore_folders dry_run rest).1,
        (filter_children targets ignore_folders dry_run rest).2) := by
  simp [filter_children, hig]

theorem ignored_folder_untouched_witness :
    filter_children ["facebook.com"] ["Keep"] false
        [Item.folder "Keep" "" [Item.leaf "http://m.facebook.com/a" "A" "" []] []] =
      ([Item.folder "Keep" "" [Item.leaf "http://m.facebook.com/a" "A" "" []] []], 0) := by
  rw [ignored_folder_untouched ["facebook.com"] ["Keep"] false "Keep" ""
    [Item.leaf "http://m.facebook.com/a" "A" "" []] [] [] (by decide)]
  simp [filter_children]

/-! ## Claim C5 -/

/-- C5: in the prune-broken-links engine, an in-scope leaf (non-empty URL,
not excluded by the folder filter) of a non-simulated run is marked for
removal exactly when its verdict has an absent status (no response) or a
status at or above the configured threshold; with a status below the
threshold the leaf is kept in place. -/
theorem prune_decision_threshold (a : PruneArgs) (stack : List String)
    (url t u : String) (m : List (String × String)) (rest : List Item) (s : Stats)
    (hurl : url ≠ "") (hscope : outOfScope a.folder_filter (joinPath stack) = false)
    (hdry : a.dry_run = false) :
    (to_delete (check_url url a.timeout (a.net url)).status a.min_status = true ↔
        ((check_url url a.timeout (a.net url)).status = none ∨
          ∃ n : Int, (check_url url a.timeout (a.net url)).status = some n ∧
            a.min_status ≤ n)) ∧
      (prune_children a stack (Item.leaf url t u m :: rest) s).1 =
        (if to_delete (check_url url a.timeout (a.net url)).status a.min_status then
          pruneList a stack rest
         else Item.leaf url t u m :: pruneList a stack rest) := by
  constructor
  · cases hst : (check_url url a.timeout (a.net url)).status with
    | none => simp [to_delete]
    | some n => simp [to_delete]
  · rw [prune_children_eq]
    by_cases hdel : to_delete (check_url url a.timeout (a.net url)).status a.min_status
    · simp [pruneList, hurl, hscope, hdry, hdel]
    · simp [pruneList, hurl, hscope, hdry, hdel]

theorem prune_decision_threshold_witness :
    (prune_children ⟨none, 10, false, 300, fun _ => NetOutcome.response 404⟩ []
      [Item.leaf "http://gone.example/" "g" "" []] ⟨0, 0, 0⟩).1 = [] := by
  have h := prune_decision_threshold ⟨none, 10, false, 300, fun _ => NetOutcome.response 404⟩
    [] "http://gone.example/" "g" "" [] [] ⟨0, 0, 0⟩ (by decide) (by decide) rfl
  rw [h.2]
  simp +decide [pruneList]

/-! ## Claim C7 -/

/-- C7: when a folder-filter scope is set and a leaf's folder path does not
start with it, the leaf is kept unconditionally and never evaluated: it is
consed unchanged onto the result for the remaining siblings and the tally
passes through untouched (no tested/broken/deleted increment, no probe),
whatever the network oracle would answer. -/
theorem scope_containment (a : PruneArgs) (stack : List String) (url t u : String)
    (m : List (String × String)) (rest : List Item) (s : Stats)
    (hurl : url ≠ "")
    (hscope : outOfScope a.folder_filter (joinPath stack) = true) :
    prune_children a stack (Item.leaf url t u m :: rest) s =
      (Item.leaf url t u m :: (prune_children a stack rest s).1,
        (prune_children a stack rest s).2) := by
  simp [prune_children, hurl, hscope]

theorem scope_containment_witness :
    prune_children ⟨some "Bar", 10, false, 300, fun _ => NetOutcome.urlError "down"⟩
        ["Other"] [Item.leaf "http://dead.example/" "d" "" []] ⟨0, 0, 0⟩ =
      ([Item.leaf "http://dead.example/" "d" "" []], ⟨0, 0, 0⟩) := by
  rw [scope_containment ⟨some "Bar", 10, false, 300, fun _ => NetOutcome.urlError "down"⟩
    ["Other"] "http://dead.example/" "d" "" [] [] ⟨0, 0, 0⟩ (by decide) (by decide)]
  simp [prune_children]

/-! ## Claim C6 -/

/-- C6: a simulated run changes nothing structurally and removes nothing,
while still counting matches.  For the prune engine under `dry_run`, the
rebuilt children equal the input, the deleted tally is unchanged, and the
broken (matched) tally is exactly what a non-simulated run would count;
for the domain remover under `dry_run`, the rebuilt children equal the
input and the reported match count is exactly that of a non-simulated
run. -/
theorem simulate_no_structural_change (a : PruneArgs) (stack : List String)
    (c : List Item) (s : Stats) (targets ignore_folders : List String) (c2 : List Item)
    (hdry : a.dry_run = true) :
    (prune_children a stack c s).1 = c ∧
      (prune_children a stack c s).2.total_deleted = s.total_deleted ∧
      (prune_children a stack c s).2.total_broken =
        (prune_children { a with dry_run := false } stack c s).2.total_broken ∧
      (filter_children targets ignore_folders true c2).1 = c2 ∧
      (filter_children targets ignore_folders true c2).2 =
        (filter_children targets ignore_folders false c2).2 := by
  refine ⟨?_, ?_, ?_, ?_, ?_⟩
  · rw [prune_children_eq]
    exact pruneList_dry a stack c hdry
  · rw [prune_children_eq]
    simp [hdry]
  · rw [prune_children_eq, prune_children_eq]
  · rw [filter_children_eq]
    exact filterList_dry targets ignore_folders c2
  · rw [filter_children_eq, filter_children_eq]

theorem simulate_no_structural_change_witness :
    (prune_children ⟨none, 10, true, 300, fun _ => NetOutcome.urlError "down"⟩ []
        [Item.leaf "http://dead.example/" "d" "" []] ⟨0, 0, 0⟩).1 =
      [Item.leaf "http://dead.example/" "d" "" []] ∧
      (prune_children ⟨none, 10, true, 300, fun _ => NetOutcome.urlError "down"⟩ []
        [Item.leaf "http://dead.example/" "d" "" []] ⟨0, 0, 0⟩).2.total_deleted = 0 :=
  ⟨(simulate_no_structural_change ⟨none, 10, true, 300, fun _ => NetOutcome.urlError "down"⟩
      [] [Item.leaf "http://dead.example/" "d" "" []] ⟨0, 0, 0⟩ [] [] [] rfl).1,
   (simulate_no_structural_change ⟨none, 10, true, 300, fun _ => NetOutcome.urlError "down"⟩
      [] [Item.leaf "http://dead.example/" "d" "" []] ⟨0, 0, 0⟩ [] [] [] rfl).2.1⟩

/-! ## Claim C8 -/

/-- C8: when a run reports no matches — the prune engine's broken tally did
not advance, respectively the domain remover's deletion count is zero — the
rebuilt children are identical to the input, in full (every field, every
child, original order). -/
theorem no_match_round_trip (a : PruneArgs) (stack : List String) (c : List Item)
    (s : Stats) (targets ignore_folders : List String) (dry_run : Bool) (c2 : List Item)
    (h1 : (prune_children a stack c s).2.total_broken = s.total_broken)
    (h2 : (filter_children targets ignore_folders dry_run c2).2 = 0) :
    (prune_children a stack c s).1 = c ∧
      (filter_children targets ignore_folders dry_run c2).1 = c2 := by
  rw [prune_children_eq] at h1 ⊢
  rw [filter_children_eq] at h2 ⊢
  constructor
  · apply pruneList_nomatch
    simp at h1
    omega
  · exact filterList_nomatch targets ignore_folders dry_run c2 h2

theorem no_match_round_trip_witness :
    (prune_children ⟨none, 10, false, 300, fun _ => NetOutcome.response 200⟩ []
        [Item.leaf "http://ok.example/" "A" "" []] ⟨0, 0, 0⟩).1 =
      [Item.leaf "http://ok.example/" "A" "" []] ∧
      (filter_children ["facebook.com"] [] false
        [Item.leaf "http://ok.example/" "A" "" []]).1 =
      [Item.leaf "http://ok.example/" "A" "" []] :=
  no_match_round_trip ⟨none, 10, false, 300, fun _ => NetOutcome.response 200⟩ []
    [Item.leaf "http://ok.example/" "A" "" []] ⟨0, 0, 0⟩ ["facebook.com"] [] false
    [Item.leaf "http://ok.example/" "A" "" []]
    (by simp +decide [prune_children]) (by simp +decide [filter_children])

/-! ## Claim C9 -/

/-- C9: for every URL string, timeout and probe outcome, `check_url`
returns a verdict — it is a total function of the probe outcome, so no
fault propagates past it — and exactly one side of the verdict is
populated: either the status carries an HTTP status code and the error is
empty (any HTTP response, 4xx/5xx included), or the status is absent and
the error is a non-empty reason string. -/
theorem check_url_verdict_exclusive (url : String) (tm : Int) (outcome : NetOutcome) :
    (∃ code : Int, (check_url url tm outcome).status = some code ∧
        (check_url url tm outcome).error = none) ∨
      ((check_url url tm outcome).status = none ∧
        ∃ e : String, (check_url url tm outcome).error = some e ∧ e ≠ "") := by
  unfold check_url
  split
  · exact Or.inr ⟨rfl, "Non-HTTP", rfl, by decide⟩
  · cases outcome with
    | response code => exact Or.inl ⟨code, rfl, rfl⟩
    | urlError reason =>
      exact Or.inr ⟨rfl, _, rfl, append_ne_empty_left _ _ (by decide)⟩
    | otherError msg =>
      exact Or.inr ⟨rfl, _, rfl, append_ne_empty_left _ _ (by decide)⟩

/-! ## Claim C10 -/

/-- C10: neither engine ever removes a folder: the rebuilt children have
exactly the same folder skeleton as the input — every folder of the input,
with all its own fields, appears at its original relative position, even
when all of its children were removed; only bookmark leaves can be omitted
from the rebuilt tree. -/
theorem folders_never_removed (a : PruneArgs) (stack : List String) (c : List Item)
    (s : Stats) (targets ignore_folders : List String) (dry_run : Bool) (c2 : List Item) :
    skeletonOf ((prune_children a stack c s).1) = skeletonOf c ∧
      skeletonOf ((filter_children targets ignore_folders dry_run c2).1) = skeletonOf c2 := by
  rw [prune_children_eq, filter_children_eq]
  exact ⟨skeleton_pruneList a stack c,
    skeleton_filterList targets ignore_folders dry_run c2⟩

end SafariBookmarks
